import Mathlib

/-!
Shallow embedding of the rating/matchmaking core of
`src/animal rank elo/python elo_animal_voter.py`.

Modelling conventions:
* Python floats are modelled as real numbers (`ℝ`), Python ints as `ℤ`.
* The Python dict `ImageManager.images` (insertion ordered, unique keys) is
  modelled as an association list `List (String × ImageRecord)`.
* Randomness (`random.choice`, `random.sample`) is modelled by injected choice
  indices, reduced modulo the relevant list length; the current time
  (`datetime.datetime.utcnow().isoformat()`) is an explicit `now` argument.
* File-system and GUI concerns (copying files, thumbnails, Tk widgets) are the
  presentation layer and are outside the embedded core, as are the
  `os.path.exists` check and the JSON text layer of persistence: `save_to_file`
  and `load_from_file` are modelled at the level of the parsed JSON document.
-/

namespace EloVoter

/-- Configuration constant `DEFAULT_ELO = 1000.0` from the source. -/
def DEFAULT_ELO : ℝ := 1000

/-- Configuration constant `K_FACTOR = 32.0` from the source. -/
def K_FACTOR : ℝ := 32

/-- Configuration constant `MATCH_HISTORY_LIMIT = 5000` from the source. -/
def MATCH_HISTORY_LIMIT : ℕ := 5000

/-- `EloEngine.expected_score`: `qa / (qa + qb)` for `qx = 10 ** (rx / 400)`,
with a guard returning `0.5` when `qa + qb == 0`. -/
noncomputable def expected_score (r_a r_b : ℝ) : ℝ :=
  let qa : ℝ := (10 : ℝ) ^ (r_a / 400)
  let qb : ℝ := (10 : ℝ) ^ (r_b / 400)
  if qa + qb = 0 then 0.5 else qa / (qa + qb)

/-- `EloEngine.update_ratings`: the Elo update with sensitivity `k`
(the engine instance used by `ImageManager` has `k = K_FACTOR`). -/
noncomputable def update_ratings (k ra rb result : ℝ) : ℝ × ℝ :=
  let ea := expected_score ra rb
  let eb := expected_score rb ra
  (ra + k * (result - ea), rb + k * ((1 - result) - eb))

/-- Dataclass `ImageRecord` from the source (floats as `ℝ`, ints as `ℤ`). -/
structure ImageRecord where
  id : String
  path : String
  name : String
  rating : ℝ
  wins : ℤ
  losses : ℤ
  draws : ℤ
  «matches» : ℤ
  added_at : String

/-- Dataclass `MatchRecord` from the source. -/
structure MatchRecord where
  timestamp : String
  winner_id : Option String
  loser_id : Option String
  draw : Bool
  winner_rating_before : ℝ
  loser_rating_before : ℝ
  winner_rating_after : ℝ
  loser_rating_after : ℝ

/-- The persistent state of `ImageManager`: the `images` dict (as an
insertion-ordered association list keyed by image id) and the `history`
list.  The thumbnail/display caches are presentation-layer state. -/
structure Manager where
  images : List (String × ImageRecord)
  history : List MatchRecord

/-- A fresh `ImageManager()`. -/
def emptyManager : Manager := ⟨[], []⟩

/-- Dict key lookup `d[k]` / `k in d` on the association-list model. -/
def lookupKey (l : List (String × ImageRecord)) (k : String) : Option ImageRecord :=
  (l.find? (fun p => p.1 == k)).map (fun p => p.2)

/-- `image_id in self.images` / `self.images[image_id]` lookup. -/
def lookupImage (m : Manager) (k : String) : Option ImageRecord :=
  lookupKey m.images k

/-- In-place mutation of the record stored under key `k`
(Python mutates the record object held in the dict). -/
def adjust (l : List (String × ImageRecord)) (k : String)
    (f : ImageRecord → ImageRecord) : List (String × ImageRecord) :=
  l.map (fun p => if p.1 == k then (p.1, f p.2) else p)

/-- The `KeyError("Image id not found")` raised by `record_match`
(the NotFoundError of the specification). -/
inductive NotFoundError where
  | imageIdNotFound
deriving DecidableEq

/-- `ImageManager.record_match(a_id, b_id, result)`.  Mutation of the two dict
entries is modelled by the same sequence of per-key updates the Python method
performs (so the aliased call with `a_id = b_id` composes them, as Python
would on the shared record object).  The membership check precedes every
mutation, exactly as in the source, so a failing call returns the error with
no new state. -/
noncomputable def record_match (m : Manager) (a_id b_id : String) (result : ℝ)
    (now : String) : Except NotFoundError Manager :=
  match lookupImage m a_id, lookupImage m b_id with
  | some a, some b =>
    let before_a := a.rating
    let before_b := b.rating
    let new_ab := update_ratings K_FACTOR before_a before_b result
    let imgs1 :=
      if result = 1 then
        adjust (adjust m.images a_id (fun r => { r with wins := r.wins + 1 }))
          b_id (fun r => { r with losses := r.losses + 1 })
      else if result = 0 then
        adjust (adjust m.images b_id (fun r => { r with wins := r.wins + 1 }))
          a_id (fun r => { r with losses := r.losses + 1 })
      else
        adjust (adjust m.images a_id (fun r => { r with draws := r.draws + 1 }))
          b_id (fun r => { r with draws := r.draws + 1 })
    let winner_id : Option String :=
      if result = 1 then some a_id else if result = 0 then some b_id else none
    let loser_id : Option String :=
      if result = 1 then some b_id else if result = 0 then some a_id else none
    let imgs2 :=
      adjust (adjust imgs1 a_id (fun r => { r with «matches» := r.«matches» + 1 }))
        b_id (fun r => { r with «matches» := r.«matches» + 1 })
    let imgs3 :=
      adjust (adjust imgs2 a_id (fun r => { r with rating := new_ab.1 }))
        b_id (fun r => { r with rating := new_ab.2 })
    let entry : MatchRecord :=
      { timestamp := now
        winner_id := winner_id
        loser_id := loser_id
        draw := decide (result = 0.5)
        winner_rating_before :=
          if winner_id = some a_id then before_a
          else if winner_id = some b_id then before_b else before_a
        loser_rating_before :=
          if loser_id = some b_id then before_b
          else if loser_id = some a_id then before_a else before_b
        winner_rating_after :=
          if winner_id = some a_id then new_ab.1
          else if winner_id = some b_id then new_ab.2 else new_ab.1
        loser_rating_after :=
          if loser_id = some b_id then new_ab.2
          else if loser_id = some a_id then new_ab.1 else new_ab.2 }
    let h1 := entry :: m.history
    let history1 := if h1.length > MATCH_HISTORY_LIMIT then h1.take MATCH_HISTORY_LIMIT else h1
    .ok { images := imgs3, history := history1 }
  | _, _ => .error .imageIdNotFound

/-- `ImageManager.add_image(path)`: insertion is idempotent by id.  The id
(Python derives it from `hash(os.path.abspath(path))`) and the display name
(`os.path.basename(path)`) depend on the OS/hash environment and are supplied
as the inputs `uid` and `name`; `now` stands for the dataclass
`added_at` default factory timestamp. -/
def add_image (m : Manager) (uid path name now : String) : Manager :=
  if (lookupImage m uid).isSome then m
  else { m with images :=
          m.images ++ [(uid, ⟨uid, path, name, DEFAULT_ELO, 0, 0, 0, 0, now⟩)] }

/-- `ImageManager.remove_image(image_id)`: deletes the dict entry and purges
every history entry whose winner or loser id equals `image_id`; no-op when
the id is absent.  (Cache eviction is presentation-layer.) -/
def remove_image (m : Manager) (image_id : String) : Manager :=
  if (lookupImage m image_id).isSome then
    { images := m.images.filter (fun p => !(p.1 == image_id))
      history := m.history.filter
        (fun h => !(h.winner_id == some image_id) && !(h.loser_id == some image_id)) }
  else m

/-- The reset performed by `EloVotingApp.ui_reset_ratings` once confirmed:
every rating back to `DEFAULT_ELO`, all counters zero, history cleared; the
method returns immediately when the catalog is empty. -/
def reset_all (m : Manager) : Manager :=
  if m.images.isEmpty then m
  else
    { images := m.images.map (fun p =>
        (p.1, { p.2 with rating := DEFAULT_ELO, wins := 0, losses := 0,
                         draws := 0, «matches» := 0 }))
      history := [] }

/-- `ImageManager.ranking()`: the records sorted by rating descending;
Python `sorted(..., reverse=True)` is stable, modelled by a stable merge
sort with the order `y.rating ≤ x.rating`. -/
noncomputable def ranking (m : Manager) : List ImageRecord :=
  (m.images.map (fun p => p.2)).mergeSort (fun x y => decide (y.rating ≤ x.rating))

/-- `list(self.images.keys())`: the key list of the catalog dict. -/
def idsOf (m : Manager) : List String := m.images.map (fun p => p.1)

/-- `ImageManager.get_random_pair()`: `random.sample(ids, 2)` draws two
distinct positions; the sample is modelled by a first index into `ids` and a
second index into the remaining list, each reduced modulo the length. -/
def get_random_pair (m : Manager) (c1 c2 : ℕ) :
    Option (ImageRecord × ImageRecord) :=
  if (idsOf m).length < 2 then none
  else
    let i1 := c1 % (idsOf m).length
    let a_id := (idsOf m).getD i1 ""
    let rest := (idsOf m).eraseIdx i1
    let b_id := rest.getD (c2 % rest.length) ""
    match lookupImage m a_id, lookupImage m b_id with
    | some a, some b => some (a, b)
    | _, _ => none

/-- `random.choice(ids)`: the anchor key of `get_smart_pair`, modelled by the
injected index `cA` reduced modulo the catalog size. -/
def anchorId (m : Manager) (cA : ℕ) : String :=
  (idsOf m).getD (cA % (idsOf m).length) ""

/-- The candidate list of `get_smart_pair`: for every other key, the pair of
the absolute rating difference to `a` and that key (built by iterating the
dict items, since each `i` in `ids` indexes its own record). -/
def smart_candidates (m : Manager) (a_id : String) (a : ImageRecord) :
    List (ℝ × String) :=
  (m.images.filter (fun p => !(p.1 == a_id))).map
    (fun p => (|a.rating - p.2.rating|, p.1))

/-- `candidates.sort(key=lambda x: x[0])`: stable sort by the rating
difference alone. -/
noncomputable def sorted_candidates (m : Manager) (a_id : String)
    (a : ImageRecord) : List (ℝ × String) :=
  (smart_candidates m a_id a).mergeSort (fun p q => decide (p.1 ≤ q.1))

/-- `top_k = min(6, len(candidates))` from `get_smart_pair`. -/
def topK (m : Manager) (a_id : String) (a : ImageRecord) : ℕ :=
  min 6 (smart_candidates m a_id a).length

/-- `ImageManager.get_smart_pair()`: anchor `A` chosen by `random.choice(ids)`
(index `cA`), then one of the `top_k` closest-rated candidates chosen by
`random.choice(candidates[:top_k])` (index `cB`). -/
noncomputable def get_smart_pair (m : Manager) (cA cB : ℕ) :
    Option (ImageRecord × ImageRecord) :=
  if (idsOf m).length < 2 then none
  else
    let a_id := anchorId m cA
    match lookupImage m a_id with
    | none => none
    | some a =>
      let chosen := ((sorted_candidates m a_id a).take (topK m a_id a)).getD
        (cB % topK m a_id a) (0, "")
      match lookupImage m chosen.2 with
      | none => none
      | some b => some (a, b)

/-- Abstract syntax of a parsed JSON document (`json.load` output): Python
distinguishes JSON ints from JSON floats, so both carry their own
constructor. -/
inductive JValue where
  | null : JValue
  | jbool : Bool → JValue
  | jint : ℤ → JValue
  | jnum : ℝ → JValue
  | jstr : String → JValue
  | jarr : List JValue → JValue
  | jobj : List (String × JValue) → JValue

/-- Key lookup in a parsed JSON object (`data.get(k)`). -/
def jlookup (kvs : List (String × JValue)) (k : String) : Option JValue :=
  (kvs.find? (fun p => p.1 == k)).map (fun p => p.2)

/-- Serialization of an `Optional[str]` field (`None` becomes JSON null). -/
def optStrJson : Option String → JValue
  | none => .null
  | some s => .jstr s

/-- `ImageRecord.to_dict()` as a JSON object, fields in dataclass order. -/
def image_to_json (r : ImageRecord) : JValue :=
  .jobj [("id", .jstr r.id), ("path", .jstr r.path), ("name", .jstr r.name),
         ("rating", .jnum r.rating), ("wins", .jint r.wins),
         ("losses", .jint r.losses), ("draws", .jint r.draws),
         ("matches", .jint r.«matches»), ("added_at", .jstr r.added_at)]

/-- `MatchRecord.to_dict()` as a JSON object, fields in dataclass order. -/
def match_to_json (h : MatchRecord) : JValue :=
  .jobj [("timestamp", .jstr h.timestamp),
         ("winner_id", optStrJson h.winner_id),
         ("loser_id", optStrJson h.loser_id),
         ("draw", .jbool h.draw),
         ("winner_rating_before", .jnum h.winner_rating_before),
         ("loser_rating_before", .jnum h.loser_rating_before),
         ("winner_rating_after", .jnum h.winner_rating_after),
         ("loser_rating_after", .jnum h.loser_rating_after)]

/-- `ImageManager.save_to_file`: the document written by `json.dump`
(the file-system write itself is the boundary layer). -/
def save_to_file (m : Manager) : JValue :=
  .jobj [("images", .jobj (m.images.map (fun p => (p.1, image_to_json p.2)))),
         ("history", .jarr (m.history.map match_to_json))]

/-- The structural failures of `load_from_file` (Python raises `TypeError`
or `AttributeError` from the dataclass constructors and `.items()`; the
specification groups them as MalformedDataError). -/
inductive MalformedDataError where
  | malformed
deriving DecidableEq

/-- The dataclass field names accepted by `ImageRecord(**rec)`. -/
def imageFieldNames : List String :=
  ["id", "path", "name", "rating", "wins", "losses", "draws", "matches",
   "added_at"]

/-- The dataclass field names accepted by `MatchRecord(**h)`. -/
def matchFieldNames : List String :=
  ["timestamp", "winner_id", "loser_id", "draw", "winner_rating_before",
   "loser_rating_before", "winner_rating_after", "loser_rating_after"]

/-- A JSON number as a Python float-or-int value coerced to `ℝ`. -/
def jreal : JValue → Except MalformedDataError ℝ
  | .jnum x => .ok x
  | .jint n => .ok (n : ℝ)
  | _ => .error .malformed

/-- A JSON value as an `Optional[str]`. -/
def joptStr : JValue → Except MalformedDataError (Option String)
  | .null => .ok none
  | .jstr s => .ok (some s)
  | _ => .error .malformed

/-- A required string-valued field (`id`, `path`, `name`, `timestamp`). -/
def jstrField (kvs : List (String × JValue)) (k : String) :
    Except MalformedDataError String :=
  match jlookup kvs k with
  | some (.jstr s) => .ok s
  | _ => .error .malformed

/-- A string-valued field with a default (`added_at`). -/
def jstrFieldD (kvs : List (String × JValue)) (k d : String) :
    Except MalformedDataError String :=
  match jlookup kvs k with
  | none => .ok d
  | some (.jstr s) => .ok s
  | some _ => .error .malformed

/-- An int-valued counter field defaulting to zero. -/
def jintFieldD (kvs : List (String × JValue)) (k : String) :
    Except MalformedDataError ℤ :=
  match jlookup kvs k with
  | none => .ok 0
  | some (.jint n) => .ok n
  | some _ => .error .malformed

/-- The `rating` field, defaulting to `DEFAULT_ELO`. -/
def jrealFieldD (kvs : List (String × JValue)) (k : String) :
    Except MalformedDataError ℝ :=
  match jlookup kvs k with
  | none => .ok DEFAULT_ELO
  | some v => jreal v

/-- A required real-valued field (the four before/after ratings). -/
def jrealField (kvs : List (String × JValue)) (k : String) :
    Except MalformedDataError ℝ :=
  match jlookup kvs k with
  | some v => jreal v
  | none => .error .malformed

/-- A required `Optional[str]` field (`winner_id`, `loser_id`). -/
def joptStrField (kvs : List (String × JValue)) (k : String) :
    Except MalformedDataError (Option String) :=
  match jlookup kvs k with
  | some v => joptStr v
  | none => .error .malformed

/-- The required boolean `draw` field. -/
def jboolField (kvs : List (String × JValue)) (k : String) :
    Except MalformedDataError Bool :=
  match jlookup kvs k with
  | some (.jbool b) => .ok b
  | _ => .error .malformed

/-- `ImageRecord(**rec)`: every present key must be a dataclass field
(unexpected keyword arguments raise), `id`, `path`, `name` are required, the
remaining fields default (`rating` to `DEFAULT_ELO`, counters to `0`,
`added_at` to the construction-time timestamp `now`).  The Python dataclass
stores whatever value arrives without type validation; the typed model only
represents documents whose present fields carry the JSON kind the dataclass
fields hold in normal operation, and rejects the rest. -/
def parse_image_record (now : String) :
    JValue → Except MalformedDataError ImageRecord
  | .jobj kvs =>
    if kvs.all (fun p => imageFieldNames.contains p.1) then do
      let i ← jstrField kvs "id"
      let p ← jstrField kvs "path"
      let n ← jstrField kvs "name"
      let rating ← jrealFieldD kvs "rating"
      let wins ← jintFieldD kvs "wins"
      let losses ← jintFieldD kvs "losses"
      let draws ← jintFieldD kvs "draws"
      let mtc ← jintFieldD kvs "matches"
      let added ← jstrFieldD kvs "added_at" now
      .ok ⟨i, p, n, rating, wins, losses, draws, mtc, added⟩
    else .error .malformed
  | _ => .error .malformed

/-- `MatchRecord(**h)`: all eight fields are required (the dataclass has no
defaults) and no unexpected key may be present. -/
def parse_match_record : JValue → Except MalformedDataError MatchRecord
  | .jobj kvs =>
    if kvs.all (fun p => matchFieldNames.contains p.1) then do
      let ts ← jstrField kvs "timestamp"
      let w ← joptStrField kvs "winner_id"
      let l ← joptStrField kvs "loser_id"
      let d ← jboolField kvs "draw"
      let wrb ← jrealField kvs "winner_rating_before"
      let lrb ← jrealField kvs "loser_rating_before"
      let wra ← jrealField kvs "winner_rating_after"
      let lra ← jrealField kvs "loser_rating_after"
      .ok ⟨ts, w, l, d, wrb, lrb, wra, lra⟩
    else .error .malformed
  | _ => .error .malformed

/-- Dict assignment `self.images[iid] = rec` while rebuilding the images
dict: overwrites in place when the key exists, appends otherwise. -/
def insertImage (l : List (String × ImageRecord)) (k : String)
    (v : ImageRecord) : List (String × ImageRecord) :=
  if l.any (fun p => p.1 == k) then
    l.map (fun p => if p.1 == k then (k, v) else p)
  else l ++ [(k, v)]

/-- One step of rebuilding the images dict in `load_from_file`:
`self.images[iid] = ImageRecord(**rec)` for one `(iid, rec)` pair. -/
def insert_parsed (now : String) (acc : List (String × ImageRecord))
    (p : String × JValue) :
    Except MalformedDataError (List (String × ImageRecord)) := do
  let r ← parse_image_record now p.2
  pure (insertImage acc p.1 r)

/-- `ImageManager.load_from_file`, from the parsed document onward (the
`os.path.exists` check and `json.load` text parsing are the boundary layer).
`data.get("images", {})` and `data.get("history", [])` default missing
sections; each image record is parsed and assigned into a fresh dict, then
the history list is rebuilt.  The prior manager `m` is the `self` the method
replaces; its state never flows into the result. -/
def load_from_file (m : Manager) (now : String) (v : JValue) :
    Except MalformedDataError Manager :=
  match m, v with
  | _, .jobj kvs =>
    match (jlookup kvs "images").getD (.jobj []) with
    | .jobj ipairs => do
      let imgs ← ipairs.foldlM (insert_parsed now) []
      match (jlookup kvs "history").getD (.jarr []) with
      | .jarr hs => do
        let hist ← hs.mapM parse_match_record
        pure { images := imgs, history := hist }
      | _ => .error .malformed
    | _ => .error .malformed
  | _, _ => .error .malformed

/-- The core mutating operations driven by the UI layer, for reasoning about
reachable manager states. -/
inductive Op where
  | register (uid path name now : String)
  | record (a_id b_id : String) (result : ℝ) (now : String)
  | remove (id : String)
  | reset

/-- One operation applied to the manager (a failing `record_match` raises in
Python, leaving the state unchanged). -/
noncomputable def step (m : Manager) : Op → Manager
  | .register uid path name now => add_image m uid path name now
  | .record a_id b_id result now =>
    match record_match m a_id b_id result now with
    | .ok m1 => m1
    | .error _ => m
  | .remove id => remove_image m id
  | .reset => reset_all m

/-- The manager reached from a fresh `ImageManager()` by a sequence of core
operations. -/
noncomputable def run (ops : List Op) : Manager :=
  ops.foldl step emptyManager

/-- The counter invariant of the data model: `matches == wins+losses+draws`
with all four counters non-negative. -/
def StatsOk (r : ImageRecord) : Prop :=
  r.«matches» = r.wins + r.losses + r.draws ∧
  0 ≤ r.wins ∧ 0 ≤ r.losses ∧ 0 ≤ r.draws ∧ 0 ≤ r.«matches»

/-- Concrete two-item fixture: record registered under key "a". -/
def recA : ImageRecord := ⟨"a", "pa", "A", DEFAULT_ELO, 0, 0, 0, 0, "t0"⟩

/-- Concrete two-item fixture: record registered under key "b". -/
def recB : ImageRecord := ⟨"b", "pb", "B", DEFAULT_ELO, 0, 0, 0, 0, "t0"⟩

/-- Concrete manager holding `recA` and `recB` with an empty history. -/
def mAB : Manager := ⟨[("a", recA), ("b", recB)], []⟩

/-! Helper lemmas about the embedded operations. -/

lemma q_pos (r : ℝ) : 0 < (10 : ℝ) ^ (r / 400) :=
  Real.rpow_pos_of_pos (by norm_num) _

lemma q_sum_pos (ra rb : ℝ) :
    0 < (10 : ℝ) ^ (ra / 400) + (10 : ℝ) ^ (rb / 400) :=
  add_pos (q_pos ra) (q_pos rb)

lemma expected_score_eq (ra rb : ℝ) :
    expected_score ra rb =
      (10 : ℝ) ^ (ra / 400) / ((10 : ℝ) ^ (ra / 400) + (10 : ℝ) ^ (rb / 400)) := by
  unfold expected_score
  exact if_neg (ne_of_gt (q_sum_pos ra rb))

lemma expected_score_self (r : ℝ) : expected_score r r = 1 / 2 := by
  rw [expected_score_eq]
  have h : (0 : ℝ) < (10 : ℝ) ^ (r / 400) := q_pos r
  field_simp
  ring

lemma lookupKey_adjust_self (l : List (String × ImageRecord)) (k : String)
    (f : ImageRecord → ImageRecord) :
    lookupKey (adjust l k f) k = (lookupKey l k).map f := by
  induction l with
  | nil => rfl
  | cons x t ih =>
    simp only [adjust, List.map_cons, lookupKey] at *
    by_cases h : (x.1 == k) = true
    · rw [if_pos h,
        List.find?_cons_of_pos (p := fun q => q.1 == k) (a := (x.1, f x.2)) _ h,
        List.find?_cons_of_pos (p := fun q => q.1 == k) (a := x) _ h]
      rfl
    · rw [if_neg h,
        List.find?_cons_of_neg (p := fun q => q.1 == k) (a := x) _ h,
        List.find?_cons_of_neg (p := fun q => q.1 == k) (a := x) _ h]
      exact ih

lemma lookupKey_adjust_ne (l : List (String × ImageRecord)) {k k' : String}
    (f : ImageRecord → ImageRecord) (h : k' ≠ k) :
    lookupKey (adjust l k f) k' = lookupKey l k' := by
  induction l with
  | nil => rfl
  | cons x t ih =>
    simp only [adjust, List.map_cons, lookupKey] at *
    by_cases h1 : (x.1 == k) = true
    · have hk : x.1 = k := by simpa using h1
      have h2 : ¬((x.1 == k') = true) := by
        simp only [beq_iff_eq]
        intro hc
        exact h (hc.symm.trans hk)
      rw [if_pos h1,
        List.find?_cons_of_neg (p := fun q => q.1 == k') (a := (x.1, f x.2)) _ h2,
        List.find?_cons_of_neg (p := fun q => q.1 == k') (a := x) _ h2]
      exact ih
    · by_cases h2 : (x.1 == k') = true
      · rw [if_neg h1,
          List.find?_cons_of_pos (p := fun q => q.1 == k') (a := x) _ h2,
          List.find?_cons_of_pos (p := fun q => q.1 == k') (a := x) _ h2]
      · rw [if_neg h1,
          List.find?_cons_of_neg (p := fun q => q.1 == k') (a := x) _ h2,
          List.find?_cons_of_neg (p := fun q => q.1 == k') (a := x) _ h2]
        exact ih

lemma history_push (e : MatchRecord) (h : List MatchRecord) :
    (if (e :: h).length > MATCH_HISTORY_LIMIT then
        (e :: h).take MATCH_HISTORY_LIMIT else e :: h) =
      e :: h.take (MATCH_HISTORY_LIMIT - 1) := by
  by_cases hl : (e :: h).length > MATCH_HISTORY_LIMIT
  · rw [if_pos hl]
    show (e :: h).take (4999 + 1) = e :: h.take 4999
    rw [List.take_succ_cons]
  · rw [if_neg hl]
    have hle : h.length ≤ 4999 := by
      simp only [List.length_cons, MATCH_HISTORY_LIMIT] at hl
      omega
    show e :: h = e :: h.take 4999
    rw [List.take_of_length_le hle]

lemma history_push_head (e : MatchRecord) (h : List MatchRecord) :
    (if (e :: h).length > MATCH_HISTORY_LIMIT then
        (e :: h).take MATCH_HISTORY_LIMIT else e :: h).head? = some e := by
  rw [history_push]
  rfl

/-! Claim theorems. -/

/-- C1: `update_ratings` with `K = K_FACTOR = 32` returns exactly
`(ra + 32*(result - expected_score ra rb), rb + 32*((1-result) - expected_score rb ra))`
for every finite rating pair and result value; `expected_score` is the
logistic expectation `qa/(qa+qb)` whose denominator is always positive (so
the `0.5` guard never fires on real inputs); in particular
`update_ratings 32 1000 1000 1 = (1016, 984)` and a draw between equal
ratings `1000` leaves both at `1000`. -/
theorem c1_update_ratings_formula :
    (∀ ra rb result : ℝ,
        update_ratings K_FACTOR ra rb result =
          (ra + 32 * (result - expected_score ra rb),
           rb + 32 * ((1 - result) - expected_score rb ra)))
    ∧ (∀ ra rb : ℝ,
        0 < (10 : ℝ) ^ (ra / 400) + (10 : ℝ) ^ (rb / 400)
        ∧ expected_score ra rb =
            (10 : ℝ) ^ (ra / 400) /
              ((10 : ℝ) ^ (ra / 400) + (10 : ℝ) ^ (rb / 400)))
    ∧ update_ratings K_FACTOR 1000 1000 1 = (1016, 984)
    ∧ update_ratings K_FACTOR 1000 1000 0.5 = (1000, 1000) := by
  refine ⟨fun ra rb result => rfl,
    fun ra rb => ⟨q_sum_pos ra rb, expected_score_eq ra rb⟩, ?_, ?_⟩
  · unfold update_ratings
    rw [expected_score_self]
    norm_num [K_FACTOR]
  · unfold update_ratings
    rw [expected_score_self]
    norm_num [K_FACTOR]

/-- C3: `record_match` with an id absent from the catalog fails with the
not-found error; since the membership check precedes every mutation in the
source, no state change accompanies the failure (the operation produces no
successor state). -/
theorem c3_record_match_not_found
    (m : Manager) (a_id b_id : String) (result : ℝ) (now : String)
    (h : lookupImage m a_id = none ∨ lookupImage m b_id = none) :
    record_match m a_id b_id result now = .error .imageIdNotFound := by
  rcases h1 : lookupImage m a_id with _ | a
  · rcases h2 : lookupImage m b_id with _ | b <;>
      simp only [record_match, h1, h2]
  · rcases h2 : lookupImage m b_id with _ | b
    · simp only [record_match, h1, h2]
    · rw [h1, h2] at h
      rcases h with h | h <;> exact absurd h (by simp)

/-- Witness for C3 at the empty catalog. -/
theorem c3_record_match_not_found_witness :
    record_match emptyManager "a" "b" 1 "t" = .error .imageIdNotFound :=
  c3_record_match_not_found emptyManager "a" "b" 1 "t" (Or.inl rfl)

lemma record_match_ok_exists {m : Manager} {a_id b_id : String}
    {a b : ImageRecord} (result : ℝ) (now : String)
    (ha : lookupImage m a_id = some a) (hb : lookupImage m b_id = some b) :
    ∃ mx, record_match m a_id b_id result now = .ok mx := by
  simp only [record_match, ha, hb]
  exact ⟨_, rfl⟩

/-- C2: `record_match` on two distinct registered ids with a canonical
result updates both ratings to the `update_ratings` outputs and prepends a
match entry.  For a win of A (`result = 1`) A gains a win, B a loss, both
gain a match, and the new log head carries `winner_id = a_id`,
`loser_id = b_id`, `draw = false`.  For a draw (`result = 0.5`) both gain a
draw and a match, the head has no winner or loser, `draw = true`, and the
winner before/after fields carry A while the loser fields carry B. -/
theorem c2_record_match_canonical
    (m : Manager) (a_id b_id now : String) (a b : ImageRecord)
    (ha : lookupImage m a_id = some a) (hb : lookupImage m b_id = some b)
    (hne : a_id ≠ b_id) :
    (∃ m1, record_match m a_id b_id 1 now = .ok m1 ∧
      lookupImage m1 a_id = some { a with
        wins := a.wins + 1
        «matches» := a.«matches» + 1
        rating := (update_ratings K_FACTOR a.rating b.rating 1).1 } ∧
      lookupImage m1 b_id = some { b with
        losses := b.losses + 1
        «matches» := b.«matches» + 1
        rating := (update_ratings K_FACTOR a.rating b.rating 1).2 } ∧
      ∃ e, m1.history.head? = some e ∧ e.winner_id = some a_id ∧
        e.loser_id = some b_id ∧ e.draw = false ∧ e.timestamp = now)
    ∧ (∃ m2, record_match m a_id b_id 0.5 now = .ok m2 ∧
      lookupImage m2 a_id = some { a with
        draws := a.draws + 1
        «matches» := a.«matches» + 1
        rating := (update_ratings K_FACTOR a.rating b.rating 0.5).1 } ∧
      lookupImage m2 b_id = some { b with
        draws := b.draws + 1
        «matches» := b.«matches» + 1
        rating := (update_ratings K_FACTOR a.rating b.rating 0.5).2 } ∧
      ∃ e, m2.history.head? = some e ∧ e.winner_id = none ∧
        e.loser_id = none ∧ e.draw = true ∧ e.timestamp = now ∧
        e.winner_rating_before = a.rating ∧
        e.winner_rating_after = (update_ratings K_FACTOR a.rating b.rating 0.5).1 ∧
        e.loser_rating_before = b.rating ∧
        e.loser_rating_after = (update_ratings K_FACTOR a.rating b.rating 0.5).2) := by
  have ha9 : lookupKey m.images a_id = some a := ha
  have hb9 : lookupKey m.images b_id = some b := hb
  have t1 : ((1 : ℝ) = 1) = True := by norm_num
  have t2 : ((1 : ℝ) = 0) = False := by norm_num
  have t3 : decide ((1 : ℝ) = 0.5) = false := decide_eq_false (by norm_num)
  have t4 : ((0.5 : ℝ) = 1) = False := by norm_num
  have t5 : ((0.5 : ℝ) = 0) = False := by norm_num
  have t6 : decide ((0.5 : ℝ) = 0.5) = true := decide_eq_true rfl
  have t7 : ∀ s : String, ((none : Option String) = some s) = False := by
    intro s
    simp
  constructor
  · cases hrm : record_match m a_id b_id 1 now with
    | error e =>
      obtain ⟨mx, hmx⟩ := record_match_ok_exists 1 now ha hb
      rw [hmx] at hrm
      exact Except.noConfusion hrm
    | ok m1 =>
      simp only [record_match, ha, hb, t1, t2, t3, if_true, if_false,
        eq_self_iff_true, Except.ok.injEq] at hrm
      refine ⟨m1, rfl, ?_, ?_, ?_⟩ <;> rw [← hrm]
      · simp only [lookupImage]
        rw [lookupKey_adjust_ne _ _ hne, lookupKey_adjust_self,
          lookupKey_adjust_ne _ _ hne, lookupKey_adjust_self,
          lookupKey_adjust_ne _ _ hne, lookupKey_adjust_self, ha9]
        rfl
      · simp only [lookupImage]
        rw [lookupKey_adjust_self, lookupKey_adjust_ne _ _ hne.symm,
          lookupKey_adjust_self, lookupKey_adjust_ne _ _ hne.symm,
          lookupKey_adjust_self, lookupKey_adjust_ne _ _ hne.symm, hb9]
        rfl
      · exact ⟨_, history_push_head _ _, rfl, rfl, rfl, rfl⟩
  · cases hrm : record_match m a_id b_id 0.5 now with
    | error e =>
      obtain ⟨mx, hmx⟩ := record_match_ok_exists 0.5 now ha hb
      rw [hmx] at hrm
      exact Except.noConfusion hrm
    | ok m2 =>
      simp only [record_match, ha, hb, t4, t5, t6, t7, if_true, if_false,
        eq_self_iff_true, Except.ok.injEq] at hrm
      refine ⟨m2, rfl, ?_, ?_, ?_⟩ <;> rw [← hrm]
      · simp only [lookupImage]
        rw [lookupKey_adjust_ne _ _ hne, lookupKey_adjust_self,
          lookupKey_adjust_ne _ _ hne, lookupKey_adjust_self,
          lookupKey_adjust_ne _ _ hne, lookupKey_adjust_self, ha9]
        rfl
      · simp only [lookupImage]
        rw [lookupKey_adjust_self, lookupKey_adjust_ne _ _ hne.symm,
          lookupKey_adjust_self, lookupKey_adjust_ne _ _ hne.symm,
          lookupKey_adjust_self, lookupKey_adjust_ne _ _ hne.symm, hb9]
        rfl
      · exact ⟨_, history_push_head _ _, rfl, rfl, rfl, rfl, rfl, rfl, rfl, rfl⟩

/-- Witness for C2 on the concrete two-item catalog `mAB`. -/
theorem c2_record_match_canonical_witness :
    (∃ m1, record_match mAB "a" "b" 1 "t" = .ok m1 ∧
      lookupImage m1 "a" = some { recA with
        wins := recA.wins + 1
        «matches» := recA.«matches» + 1
        rating := (update_ratings K_FACTOR recA.rating recB.rating 1).1 } ∧
      lookupImage m1 "b" = some { recB with
        losses := recB.losses + 1
        «matches» := recB.«matches» + 1
        rating := (update_ratings K_FACTOR recA.rating recB.rating 1).2 } ∧
      ∃ e, m1.history.head? = some e ∧ e.winner_id = some "a" ∧
        e.loser_id = some "b" ∧ e.draw = false ∧ e.timestamp = "t")
    ∧ (∃ m2, record_match mAB "a" "b" 0.5 "t" = .ok m2 ∧
      lookupImage m2 "a" = some { recA with
        draws := recA.draws + 1
        «matches» := recA.«matches» + 1
        rating := (update_ratings K_FACTOR recA.rating recB.rating 0.5).1 } ∧
      lookupImage m2 "b" = some { recB with
        draws := recB.draws + 1
        «matches» := recB.«matches» + 1
        rating := (update_ratings K_FACTOR recA.rating recB.rating 0.5).2 } ∧
      ∃ e, m2.history.head? = some e ∧ e.winner_id = none ∧
        e.loser_id = none ∧ e.draw = true ∧ e.timestamp = "t" ∧
        e.winner_rating_before = recA.rating ∧
        e.winner_rating_after = (update_ratings K_FACTOR recA.rating recB.rating 0.5).1 ∧
        e.loser_rating_before = recB.rating ∧
        e.loser_rating_after = (update_ratings K_FACTOR recA.rating recB.rating 0.5).2) :=
  c2_record_match_canonical mAB "a" "b" "t" recA recB rfl rfl (by decide)

/-- C10: for a result value other than `1.0` and `0.0` (for example `0.7`)
`record_match` takes the draw branch for statistics — both draws counters
increase, the logged winner and loser ids are `none` — yet the logged `draw`
flag is `decide (result = 0.5)`, so it is `true` exactly when the result is
`0.5` and `false` for every other non-canonical result such as `0.7`. -/
theorem c10_noncanonical_result_draw_branch
    (m : Manager) (a_id b_id now : String) (a b : ImageRecord) (result : ℝ)
    (ha : lookupImage m a_id = some a) (hb : lookupImage m b_id = some b)
    (hne : a_id ≠ b_id) (h1 : result ≠ 1) (h0 : result ≠ 0) :
    ∃ m3, record_match m a_id b_id result now = .ok m3 ∧
      lookupImage m3 a_id = some { a with
        draws := a.draws + 1
        «matches» := a.«matches» + 1
        rating := (update_ratings K_FACTOR a.rating b.rating result).1 } ∧
      lookupImage m3 b_id = some { b with
        draws := b.draws + 1
        «matches» := b.«matches» + 1
        rating := (update_ratings K_FACTOR a.rating b.rating result).2 } ∧
      ∃ e, m3.history.head? = some e ∧ e.winner_id = none ∧
        e.loser_id = none ∧
        (result = 0.5 → e.draw = true) ∧ (result ≠ 0.5 → e.draw = false) := by
  have ha9 : lookupKey m.images a_id = some a := ha
  have hb9 : lookupKey m.images b_id = some b := hb
  have e1 : (result = 1) = False := eq_false h1
  have e0 : (result = 0) = False := eq_false h0
  have t7 : ∀ s : String, ((none : Option String) = some s) = False := by
    intro s
    simp
  cases hrm : record_match m a_id b_id result now with
  | error e =>
    obtain ⟨mx, hmx⟩ := record_match_ok_exists result now ha hb
    rw [hmx] at hrm
    exact Except.noConfusion hrm
  | ok m3 =>
    simp only [record_match, ha, hb, e1, e0, t7, if_true, if_false,
      eq_self_iff_true, Except.ok.injEq] at hrm
    refine ⟨m3, rfl, ?_, ?_, ?_⟩ <;> rw [← hrm]
    · simp only [lookupImage]
      rw [lookupKey_adjust_ne _ _ hne, lookupKey_adjust_self,
        lookupKey_adjust_ne _ _ hne, lookupKey_adjust_self,
        lookupKey_adjust_ne _ _ hne, lookupKey_adjust_self, ha9]
      rfl
    · simp only [lookupImage]
      rw [lookupKey_adjust_self, lookupKey_adjust_ne _ _ hne.symm,
        lookupKey_adjust_self, lookupKey_adjust_ne _ _ hne.symm,
        lookupKey_adjust_self, lookupKey_adjust_ne _ _ hne.symm, hb9]
      rfl
    · exact ⟨_, history_push_head _ _, rfl, rfl,
        fun hr => decide_eq_true hr, fun hr => decide_eq_false hr⟩

lemma record_match_history {m : Manager} {a_id b_id : String} {result : ℝ}
    {now : String} {m1 : Manager}
    (h : record_match m a_id b_id result now = .ok m1) :
    ∃ e, m1.history = e :: m.history.take (MATCH_HISTORY_LIMIT - 1) ∧
      e.timestamp = now := by
  cases hA : lookupImage m a_id with
  | none =>
    cases hB : lookupImage m b_id with
    | none =>
      simp only [record_match, hA, hB] at h
      exact Except.noConfusion h
    | some b =>
      simp only [record_match, hA, hB] at h
      exact Except.noConfusion h
  | some a =>
    cases hB : lookupImage m b_id with
    | none =>
      simp only [record_match, hA, hB] at h
      exact Except.noConfusion h
    | some b =>
      simp only [record_match, hA, hB, Except.ok.injEq] at h
      rw [← h]
      exact ⟨_, history_push _ _, rfl⟩

lemma step_history_le {m : Manager} (op : Op)
    (hm : m.history.length ≤ MATCH_HISTORY_LIMIT) :
    (step m op).history.length ≤ MATCH_HISTORY_LIMIT := by
  cases op with
  | register uid path name now =>
    simp only [step]
    unfold add_image
    by_cases h : (lookupImage m uid).isSome
    · rw [if_pos h]
      exact hm
    · rw [if_neg h]
      exact hm
  | record a_id b_id result now =>
    simp only [step]
    cases hrec : record_match m a_id b_id result now with
    | error e => exact hm
    | ok m1 =>
      obtain ⟨e, he, _⟩ := record_match_history hrec
      rw [he]
      have := List.length_take (MATCH_HISTORY_LIMIT - 1) m.history
      simp only [List.length_cons, this]
      have h2 : min (MATCH_HISTORY_LIMIT - 1) m.history.length ≤
          MATCH_HISTORY_LIMIT - 1 := min_le_left _ _
      simp only [MATCH_HISTORY_LIMIT] at *
      omega
  | remove id =>
    simp only [step]
    unfold remove_image
    by_cases h : (lookupImage m id).isSome
    · rw [if_pos h]
      exact le_trans (List.length_filter_le _ _) hm
    · rw [if_neg h]
      exact hm
  | reset =>
    simp only [step]
    unfold reset_all
    by_cases h : m.images.isEmpty
    · rw [if_pos h]
      exact hm
    · rw [if_neg h]
      exact Nat.zero_le _

lemma run_history_le (ops : List Op) :
    (run ops).history.length ≤ MATCH_HISTORY_LIMIT := by
  suffices h : ∀ (l : List Op) (m : Manager),
      m.history.length ≤ MATCH_HISTORY_LIMIT →
      (l.foldl step m).history.length ≤ MATCH_HISTORY_LIMIT by
    exact h ops emptyManager (Nat.zero_le _)
  intro l
  induction l with
  | nil => intro m hm; exact hm
  | cons op t ih =>
    intro m hm
    exact ih (step m op) (step_history_le op hm)

/-- C5: along every operation sequence from the empty catalog the match log
never exceeds `MATCH_HISTORY_LIMIT = 5000` entries; and every successful
`record_match` prepends its new entry (carrying the current timestamp) at the
head while keeping only the first `MATCH_HISTORY_LIMIT - 1` previous entries,
so the oldest entries are the ones dropped and the log stays
most-recent-first. -/
theorem c5_history_bounded :
    (∀ ops : List Op, (run ops).history.length ≤ MATCH_HISTORY_LIMIT)
    ∧ (∀ (m : Manager) (a_id b_id now : String) (a b : ImageRecord)
        (result : ℝ),
        lookupImage m a_id = some a → lookupImage m b_id = some b →
        ∃ m1 e, record_match m a_id b_id result now = .ok m1 ∧
          m1.history = e :: m.history.take (MATCH_HISTORY_LIMIT - 1) ∧
          e.timestamp = now) := by
  constructor
  · exact run_history_le
  · intro m a_id b_id now a b result ha hb
    obtain ⟨m1, hm1⟩ := record_match_ok_exists result now ha hb
    obtain ⟨e, he, ht⟩ := record_match_history hm1
    exact ⟨m1, e, hm1, he, ht⟩

/-- Witness for C5 on the concrete two-item catalog `mAB`. -/
theorem c5_history_bounded_witness :
    ∃ m1 e, record_match mAB "a" "b" 1 "t" = .ok m1 ∧
      m1.history = e :: mAB.history.take (MATCH_HISTORY_LIMIT - 1) ∧
      e.timestamp = "t" :=
  c5_history_bounded.2 mAB "a" "b" "t" recA recB 1 rfl rfl

set_option maxHeartbeats 4000000 in
lemma record_match_stats {m : Manager} {a_id b_id : String} {result : ℝ}
    {now : String} {m1 : Manager}
    (h : record_match m a_id b_id result now = .ok m1)
    (hm : ∀ p ∈ m.images, StatsOk p.2) :
    ∀ p ∈ m1.images, StatsOk p.2 := by
  cases hA : lookupImage m a_id with
  | none =>
    cases hB : lookupImage m b_id with
    | none =>
      simp only [record_match, hA, hB] at h
      exact Except.noConfusion h
    | some b =>
      simp only [record_match, hA, hB] at h
      exact Except.noConfusion h
  | some a =>
    cases hB : lookupImage m b_id with
    | none =>
      simp only [record_match, hA, hB] at h
      exact Except.noConfusion h
    | some b =>
      by_cases h1 : result = 1
      · have e1 : (result = 1) = True := eq_true h1
        simp only [record_match, hA, hB, e1, if_true, Except.ok.injEq] at h
        rw [← h]
        intro p hp
        simp only [adjust, List.map_map] at hp
        obtain ⟨q, hq, hpq⟩ := List.mem_map.mp hp
        have hsq := hm q hq
        rw [← hpq]
        rcases Bool.eq_false_or_eq_true (q.1 == a_id) with qa | qa <;>
          rcases Bool.eq_false_or_eq_true (q.1 == b_id) with qb | qb <;>
          simp only [Function.comp_apply, qa, qb, eq_self_iff_true,
            Bool.false_eq_true, if_true, if_false] <;>
          simp only [StatsOk] at hsq ⊢ <;> omega
      · by_cases h0 : result = 0
        · have e1 : (result = 1) = False := eq_false h1
          have e0 : (result = 0) = True := eq_true h0
          simp only [record_match, hA, hB, e1, e0, if_true, if_false,
            Except.ok.injEq] at h
          rw [← h]
          intro p hp
          simp only [adjust, List.map_map] at hp
          obtain ⟨q, hq, hpq⟩ := List.mem_map.mp hp
          have hsq := hm q hq
          rw [← hpq]
          rcases Bool.eq_false_or_eq_true (q.1 == a_id) with qa | qa <;>
            rcases Bool.eq_false_or_eq_true (q.1 == b_id) with qb | qb <;>
            simp only [Function.comp_apply, qa, qb, eq_self_iff_true,
              Bool.false_eq_true, if_true, if_false] <;>
            simp only [StatsOk] at hsq ⊢ <;> omega
        · have e1 : (result = 1) = False := eq_false h1
          have e0 : (result = 0) = False := eq_false h0
          simp only [record_match, hA, hB, e1, e0, if_false,
            Except.ok.injEq] at h
          rw [← h]
          intro p hp
          simp only [adjust, List.map_map] at hp
          obtain ⟨q, hq, hpq⟩ := List.mem_map.mp hp
          have hsq := hm q hq
          rw [← hpq]
          rcases Bool.eq_false_or_eq_true (q.1 == a_id) with qa | qa <;>
            rcases Bool.eq_false_or_eq_true (q.1 == b_id) with qb | qb <;>
            simp only [Function.comp_apply, qa, qb, eq_self_iff_true,
              Bool.false_eq_true, if_true, if_false] <;>
            simp only [StatsOk] at hsq ⊢ <;> omega

lemma step_stats {m : Manager} (op : Op)
    (hm : ∀ p ∈ m.images, StatsOk p.2) :
    ∀ p ∈ (step m op).images, StatsOk p.2 := by
  cases op with
  | register uid path name now =>
    simp only [step]
    unfold add_image
    by_cases h : (lookupImage m uid).isSome
    · rw [if_pos h]
      exact hm
    · rw [if_neg h]
      intro p hp
      rcases List.mem_append.mp hp with hp | hp
      · exact hm p hp
      · rcases List.mem_singleton.mp hp with rfl
        exact ⟨rfl, le_refl 0, le_refl 0, le_refl 0, le_refl 0⟩
  | record a_id b_id result now =>
    simp only [step]
    cases hrec : record_match m a_id b_id result now with
    | error e => exact hm
    | ok m1 => exact record_match_stats hrec hm
  | remove id =>
    simp only [step]
    unfold remove_image
    by_cases h : (lookupImage m id).isSome
    · rw [if_pos h]
      intro p hp
      exact hm p (List.mem_of_mem_filter hp)
    · rw [if_neg h]
      exact hm
  | reset =>
    simp only [step]
    unfold reset_all
    by_cases h : m.images.isEmpty
    · rw [if_pos h]
      exact hm
    · rw [if_neg h]
      intro p hp
      obtain ⟨q, _, hpq⟩ := List.mem_map.mp hp
      rw [← hpq]
      exact ⟨rfl, le_refl 0, le_refl 0, le_refl 0, le_refl 0⟩

/-- C4: after every sequence of core operations from the empty catalog,
every item satisfies `matches = wins + losses + draws` with all four
counters non-negative (`record_match` preserves it for every result value,
including non-canonical ones, and register/remove/reset trivially do). -/
theorem c4_counter_invariant (ops : List Op) :
    ∀ p ∈ (run ops).images,
      p.2.«matches» = p.2.wins + p.2.losses + p.2.draws ∧
      0 ≤ p.2.wins ∧ 0 ≤ p.2.losses ∧ 0 ≤ p.2.draws ∧ 0 ≤ p.2.«matches» := by
  suffices h : ∀ (l : List Op) (m : Manager),
      (∀ p ∈ m.images, StatsOk p.2) →
      ∀ p ∈ (l.foldl step m).images, StatsOk p.2 by
    exact h ops emptyManager (by intro p hp; exact absurd hp (List.not_mem_nil p))
  intro l
  induction l with
  | nil => intro m hm; exact hm
  | cons op t ih =>
    intro m hm
    exact ih (step m op) (step_stats op hm)

/-- Witness for C4 after a single register operation. -/
theorem c4_counter_invariant_witness :
    (("a", (⟨"a", "pa", "A", DEFAULT_ELO, 0, 0, 0, 0, "t0"⟩ : ImageRecord)) ∈
        (run [.register "a" "pa" "A" "t0"]).images) ∧
      ((⟨"a", "pa", "A", DEFAULT_ELO, 0, 0, 0, 0, "t0"⟩ : ImageRecord).«matches» =
          (⟨"a", "pa", "A", DEFAULT_ELO, 0, 0, 0, 0, "t0"⟩ : ImageRecord).wins +
          (⟨"a", "pa", "A", DEFAULT_ELO, 0, 0, 0, 0, "t0"⟩ : ImageRecord).losses +
          (⟨"a", "pa", "A", DEFAULT_ELO, 0, 0, 0, 0, "t0"⟩ : ImageRecord).draws ∧
        0 ≤ (⟨"a", "pa", "A", DEFAULT_ELO, 0, 0, 0, 0, "t0"⟩ : ImageRecord).wins ∧
        0 ≤ (⟨"a", "pa", "A", DEFAULT_ELO, 0, 0, 0, 0, "t0"⟩ : ImageRecord).losses ∧
        0 ≤ (⟨"a", "pa", "A", DEFAULT_ELO, 0, 0, 0, 0, "t0"⟩ : ImageRecord).draws ∧
        0 ≤ (⟨"a", "pa", "A", DEFAULT_ELO, 0, 0, 0, 0, "t0"⟩ : ImageRecord).«matches») := by
  have hmem : (("a", (⟨"a", "pa", "A", DEFAULT_ELO, 0, 0, 0, 0, "t0"⟩ : ImageRecord)) ∈
      (run [.register "a" "pa" "A" "t0"]).images) := by
    show _ ∈ [("a", (⟨"a", "pa", "A", DEFAULT_ELO, 0, 0, 0, 0, "t0"⟩ : ImageRecord))]
    exact List.mem_singleton.mpr rfl
  exact ⟨hmem, c4_counter_invariant [.register "a" "pa" "A" "t0"] _ hmem⟩

/-- C6: `remove_image` is a no-op when the id is not a key of the catalog;
when the id is present it deletes that item, purges every history entry whose
winner or loser id equals it, and the subsequent ranking (whose records carry
their key as `id`, the catalog invariant) never contains the removed id. -/
theorem c6_remove_image (m : Manager) (id : String)
    (hkeys : ∀ p ∈ m.images, p.2.id = p.1) :
    (lookupImage m id = none → remove_image m id = m)
    ∧ ((lookupImage m id).isSome →
        lookupImage (remove_image m id) id = none
        ∧ (∀ e ∈ (remove_image m id).history,
            e.winner_id ≠ some id ∧ e.loser_id ≠ some id)
        ∧ (∀ r ∈ ranking (remove_image m id), r.id ≠ id)) := by
  constructor
  · intro h
    simp only [remove_image, h, Option.isSome_none, Bool.false_eq_true,
      if_false]
  · intro hs
    have hrw : remove_image m id =
        ⟨m.images.filter (fun p => !(p.1 == id)),
         m.history.filter (fun h =>
           !(h.winner_id == some id) && !(h.loser_id == some id))⟩ := by
      simp only [remove_image, hs, if_true]
    refine ⟨?_, ?_, ?_⟩
    · rw [hrw]
      simp only [lookupImage, lookupKey, Option.map_eq_none']
      rw [List.find?_eq_none]
      intro x hx
      have h2 := (List.mem_filter.mp hx).2
      rw [Bool.not_eq_true'] at h2
      simp only [h2]
      exact Bool.false_ne_true
    · rw [hrw]
      intro e he
      have h2 := (List.mem_filter.mp he).2
      rw [Bool.and_eq_true] at h2
      obtain ⟨w, l⟩ := h2
      rw [Bool.not_eq_true'] at w l
      exact ⟨beq_eq_false_iff_ne.mp w, beq_eq_false_iff_ne.mp l⟩
    · rw [hrw]
      intro r hr
      unfold ranking at hr
      rw [List.mem_mergeSort] at hr
      obtain ⟨p, hp, hpr⟩ := List.mem_map.mp hr
      have h2 := List.mem_filter.mp hp
      have hid := hkeys p h2.1
      have h3 := h2.2
      rw [Bool.not_eq_true'] at h3
      rw [← hpr, hid]
      exact beq_eq_false_iff_ne.mp h3

/-- Witness for C6 on the concrete two-item catalog `mAB`, removing "a". -/
theorem c6_remove_image_witness :
    lookupImage (remove_image mAB "a") "a" = none
    ∧ (∀ e ∈ (remove_image mAB "a").history,
        e.winner_id ≠ some "a" ∧ e.loser_id ≠ some "a")
    ∧ (∀ r ∈ ranking (remove_image mAB "a"), r.id ≠ "a") :=
  (c6_remove_image mAB "a" (by decide)).2 (by rfl)

lemma lookupKey_isSome_of_mem_keys {l : List (String × ImageRecord)}
    {k : String} (h : k ∈ l.map (fun p => p.1)) :
    ∃ r, lookupKey l k = some r := by
  induction l with
  | nil => exact absurd h (by simp)
  | cons x t ih =>
    simp only [List.map_cons, List.mem_cons] at h
    cases hx : (x.1 == k) with
    | true =>
      refine ⟨x.2, ?_⟩
      simp only [lookupKey]
      rw [List.find?_cons_of_pos (p := fun q => q.1 == k) (a := x) _ hx]
      rfl
    | false =>
      have hk : k ∈ t.map (fun p => p.1) := by
        rcases h with h1 | h1
        · exact absurd h1.symm (beq_eq_false_iff_ne.mp hx)
        · exact h1
      obtain ⟨r, hr⟩ := ih hk
      refine ⟨r, ?_⟩
      simp only [lookupKey] at hr ⊢
      rw [List.find?_cons_of_neg (p := fun q => q.1 == k) (a := x) _
        (by show ¬(x.1 == k) = true; rw [hx]; exact Bool.false_ne_true)]
      exact hr

lemma getD_mod_mem {α : Type} (l : List α) (d : α) (i : ℕ)
    (h : 0 < l.length) : l.getD (i % l.length) d ∈ l := by
  have hlt : i % l.length < l.length := Nat.mod_lt _ h
  rw [List.getD_eq_getElem l d hlt]
  exact l.getElem_mem hlt

lemma exists_key_ne {l : List (String × ImageRecord)}
    (hn : (l.map (fun p => p.1)).Nodup) (h2 : 2 ≤ l.length) (k : String) :
    ∃ p ∈ l, (p.1 == k) = false := by
  match l, h2 with
  | x :: y :: t, _ =>
    cases hx : (x.1 == k) with
    | false => exact ⟨x, List.mem_cons_self _ _, hx⟩
    | true =>
      cases hy : (y.1 == k) with
      | false => exact ⟨y, List.mem_cons_of_mem _ (List.mem_cons_self _ _), hy⟩
      | true =>
        exfalso
        have hx1 : x.1 = k := by simpa using hx
        have hy1 : y.1 = k := by simpa using hy
        simp only [List.map_cons, List.nodup_cons] at hn
        exact hn.1 (by simp [hx1, hy1])

lemma smart_candidates_pos {m : Manager}
    (hn : (m.images.map (fun p => p.1)).Nodup) (h2 : 2 ≤ m.images.length)
    (a_id : String) (a : ImageRecord) :
    0 < (smart_candidates m a_id a).length := by
  obtain ⟨p, hp, hpk⟩ := exists_key_ne hn h2 a_id
  unfold smart_candidates
  rw [List.length_map]
  exact List.length_pos_of_mem
    (List.mem_filter.mpr ⟨hp, by simp only [hpk]; rfl⟩)

lemma sorted_candidates_sorted (m : Manager) (a_id : String)
    (a : ImageRecord) :
    List.Sorted (fun x y : ℝ × String => x.1 ≤ y.1)
      (sorted_candidates m a_id a) := by
  have h := @List.sorted_mergeSort (ℝ × String)
    (fun p q => decide (p.1 ≤ q.1))
    (fun x y z hxy hyz => by
      simp only [decide_eq_true_eq] at *
      exact le_trans hxy hyz)
    (fun x y => by
      simp only [Bool.or_eq_true, decide_eq_true_eq]
      exact le_total x.1 y.1)
    (smart_candidates m a_id a)
  exact h.imp (fun hab => of_decide_eq_true hab)

/-- C9: both pair pickers return `none` exactly when fewer than two items are
registered (an absent value, never an error); with at least two items
`get_random_pair` returns a pair, and — when the catalog keys are distinct,
the dict invariant — `get_smart_pair` returns `some (a, b)` where `a` is the
record of the anchor key chosen by the injected index and `b` is the record
of one of the `top_k = min 6 _` candidates closest in rating, the candidate
list being sorted by absolute rating difference to `a`: the sorted list is a
permutation of the candidate list and every retained candidate has a
difference no larger than every dropped one. -/
theorem c9_matchmaker_pairs (m : Manager) (cA cB c1 c2 : ℕ) :
    (m.images.length < 2 →
      get_smart_pair m cA cB = none ∧ get_random_pair m c1 c2 = none)
    ∧ (2 ≤ m.images.length → ∃ pr, get_random_pair m c1 c2 = some pr)
    ∧ (2 ≤ m.images.length → (idsOf m).Nodup →
        ∃ a, lookupKey m.images (anchorId m cA) = some a ∧
        ∃ q ∈ (sorted_candidates m (anchorId m cA) a).take
            (topK m (anchorId m cA) a),
        ∃ b, lookupKey m.images q.2 = some b ∧
          get_smart_pair m cA cB = some (a, b))
    ∧ (∀ (a_id : String) (a : ImageRecord),
        (sorted_candidates m a_id a).Perm (smart_candidates m a_id a)
        ∧ ∀ x ∈ (sorted_candidates m a_id a).take (topK m a_id a),
          ∀ y ∈ (sorted_candidates m a_id a).drop (topK m a_id a),
          x.1 ≤ y.1) := by
  have hids : (idsOf m).length = m.images.length := by
    unfold idsOf
    rw [List.length_map]
  refine ⟨?_, ?_, ?_, ?_⟩
  · intro hlt
    constructor
    · unfold get_smart_pair
      rw [if_pos (by omega)]
    · unfold get_random_pair
      rw [if_pos (by omega)]
  · intro h2
    have hpos : 0 < (idsOf m).length := by omega
    obtain ⟨a, ha⟩ := lookupKey_isSome_of_mem_keys
      (getD_mod_mem (idsOf m) "" c1 hpos)
    have hrest : 0 < ((idsOf m).eraseIdx (c1 % (idsOf m).length)).length := by
      rw [List.length_eraseIdx]
      rw [if_pos (Nat.mod_lt _ hpos)]
      omega
    obtain ⟨b, hb⟩ := lookupKey_isSome_of_mem_keys
      (List.eraseIdx_subset _ _ (getD_mod_mem _ "" c2 hrest))
    refine ⟨(a, b), ?_⟩
    unfold get_random_pair
    rw [if_neg (by omega)]
    have ha2 : lookupImage m ((idsOf m).getD (c1 % (idsOf m).length) "") =
        some a := ha
    have hb2 : lookupImage m (((idsOf m).eraseIdx
        (c1 % (idsOf m).length)).getD
          (c2 % ((idsOf m).eraseIdx (c1 % (idsOf m).length)).length) "") =
        some b := hb
    simp only [ha2, hb2]
  · intro h2 hn
    have hpos : 0 < (idsOf m).length := by omega
    obtain ⟨a, ha⟩ := lookupKey_isSome_of_mem_keys
      (show anchorId m cA ∈ m.images.map (fun p => p.1) from
        getD_mod_mem (idsOf m) "" cA hpos)
    refine ⟨a, ha, ?_⟩
    have hcpos : 0 < (smart_candidates m (anchorId m cA) a).length :=
      smart_candidates_pos hn h2 (anchorId m cA) a
    have htk : 0 < topK m (anchorId m cA) a := by
      unfold topK
      omega
    have hslen : (sorted_candidates m (anchorId m cA) a).length =
        (smart_candidates m (anchorId m cA) a).length :=
      (List.mergeSort_perm _ _).length_eq
    have htake : ((sorted_candidates m (anchorId m cA) a).take
        (topK m (anchorId m cA) a)).length = topK m (anchorId m cA) a := by
      rw [List.length_take]
      have : topK m (anchorId m cA) a ≤
          (smart_candidates m (anchorId m cA) a).length := by
        unfold topK
        omega
      omega
    have hidx : cB % topK m (anchorId m cA) a <
        ((sorted_candidates m (anchorId m cA) a).take
          (topK m (anchorId m cA) a)).length := by
      rw [htake]
      exact Nat.mod_lt _ htk
    have hqmem : ((sorted_candidates m (anchorId m cA) a).take
          (topK m (anchorId m cA) a)).getD
            (cB % topK m (anchorId m cA) a) (0, "") ∈
        (sorted_candidates m (anchorId m cA) a).take
          (topK m (anchorId m cA) a) := by
      rw [List.getD_eq_getElem _ _ hidx]
      exact List.getElem_mem _
    refine ⟨_, hqmem, ?_⟩
    have hqs : ((sorted_candidates m (anchorId m cA) a).take
          (topK m (anchorId m cA) a)).getD
            (cB % topK m (anchorId m cA) a) (0, "") ∈
        smart_candidates m (anchorId m cA) a := by
      have h3 := List.mem_of_mem_take hqmem
      unfold sorted_candidates at h3
      exact List.mem_mergeSort.mp h3
    obtain ⟨p, hp, hpq⟩ := List.mem_map.mp hqs
    have hq2 : (((sorted_candidates m (anchorId m cA) a).take
          (topK m (anchorId m cA) a)).getD
            (cB % topK m (anchorId m cA) a) (0, "")).2 ∈
        m.images.map (fun p => p.1) := by
      rw [← hpq]
      exact List.mem_map.mpr ⟨p, List.mem_of_mem_filter hp, rfl⟩
    obtain ⟨b, hb⟩ := lookupKey_isSome_of_mem_keys hq2
    refine ⟨b, hb, ?_⟩
    unfold get_smart_pair
    rw [if_neg (by omega)]
    have ha2 : lookupImage m (anchorId m cA) = some a := ha
    have hb2 : lookupImage m
        ((((sorted_candidates m (anchorId m cA) a).take
          (topK m (anchorId m cA) a)).getD
            (cB % topK m (anchorId m cA) a) (0, "")).2) = some b := hb
    simp only [ha2, hb2]
  · intro a_id a
    refine ⟨List.mergeSort_perm _ _, ?_⟩
    intro x hx y hy
    exact (sorted_candidates_sorted m a_id a).rel_of_mem_take_of_mem_drop hx hy

/-- Witness for C9 on the concrete two-item catalog `mAB`. -/
theorem c9_matchmaker_pairs_witness :
    (∃ pr, get_random_pair mAB 0 0 = some pr)
    ∧ (∃ a, lookupKey mAB.images (anchorId mAB 0) = some a ∧
        ∃ q ∈ (sorted_candidates mAB (anchorId mAB 0) a).take
            (topK mAB (anchorId mAB 0) a),
        ∃ b, lookupKey mAB.images q.2 = some b ∧
          get_smart_pair mAB 0 0 = some (a, b)) :=
  ⟨(c9_matchmaker_pairs mAB 0 0 0 0).2.1 (by decide),
   (c9_matchmaker_pairs mAB 0 0 0 0).2.2.1 (by decide) (by decide)⟩

lemma except_ok_bind {ε α β : Type} (a : α) (f : α → Except ε β) :
    (Except.ok a >>= f) = f a := rfl

lemma except_error_bind {ε α β : Type} (e : ε) (f : α → Except ε β) :
    (Except.error e >>= f) = Except.error e := rfl

lemma except_bind_ok {ε α β : Type} {x : Except ε α} {f : α → Except ε β}
    {b : β} (h : (x >>= f) = .ok b) : ∃ a, x = .ok a ∧ f a = .ok b := by
  cases x with
  | ok a => exact ⟨a, rfl, h⟩
  | error e => exact Except.noConfusion (show Except.error e = Except.ok b from h)

lemma parse_image_record_roundtrip (now : String) (r : ImageRecord) :
    parse_image_record now (image_to_json r) = .ok r := by
  obtain ⟨i, p, n, rat, w, lo, dr, mt, ad⟩ := r
  rfl

lemma joptStr_optStrJson (w : Option String) : joptStr (optStrJson w) = .ok w := by
  cases w <;> rfl

lemma parse_match_record_roundtrip (h : MatchRecord) :
    parse_match_record (match_to_json h) = .ok h := by
  obtain ⟨ts, w, l, d, a1, a2, a3, a4⟩ := h
  cases w <;> cases l <;> rfl

lemma images_fold_roundtrip (now : String) :
    ∀ (l acc : List (String × ImageRecord)),
      (l.map (fun p => p.1)).Nodup →
      (∀ q ∈ l, acc.any (fun x => x.1 == q.1) = false) →
      (l.map (fun p => (p.1, image_to_json p.2))).foldlM (insert_parsed now) acc
        = .ok (acc ++ l) := by
  intro l
  induction l with
  | nil =>
    intro acc _ _
    simp only [List.map_nil, List.foldlM_nil, List.append_nil]
    rfl
  | cons x t ih =>
    intro acc hn hdis
    have hx := hdis x (List.mem_cons_self _ _)
    have hstep : insert_parsed now acc (x.1, image_to_json x.2) =
        .ok (acc ++ [x]) := by
      simp only [insert_parsed, parse_image_record_roundtrip, except_ok_bind,
        insertImage, hx, Bool.false_eq_true, if_false]
      rfl
    simp only [List.map_cons, List.foldlM_cons, hstep, except_ok_bind]
    have happ : acc ++ x :: t = (acc ++ [x]) ++ t := by simp
    rw [happ]
    have hn2 : (x.1 :: t.map (fun p => p.1)).Nodup := by simpa using hn
    apply ih
    · exact (List.nodup_cons.mp hn2).2
    · intro q hq
      have h1 := hdis q (List.mem_cons_of_mem _ hq)
      have hx1 : x.1 ≠ q.1 := by
        intro hc
        exact (List.nodup_cons.mp hn2).1
          (by rw [hc]; exact List.mem_map.mpr ⟨q, hq, rfl⟩)
      rw [List.any_append, h1]
      simp only [List.any_cons, List.any_nil, Bool.false_or, Bool.or_false]
      exact beq_eq_false_iff_ne.mpr hx1

lemma history_map_roundtrip (hs : List MatchRecord) :
    (hs.map match_to_json).mapM parse_match_record = .ok hs := by
  induction hs with
  | nil => rfl
  | cons x t ih =>
    simp only [List.map_cons, List.mapM_cons, parse_match_record_roundtrip,
      except_ok_bind, ih]
    rfl

/-- C7: saving and reloading reproduces the manager exactly — the same keyed
records with identical path, name, rating and counters, and the same history
entries in the same order — for every catalog whose keys are distinct (the
dict invariant), independently of the manager the load replaces. -/
theorem c7_save_load_roundtrip (m m0 : Manager) (now : String)
    (hn : (m.images.map (fun p => p.1)).Nodup) :
    load_from_file m0 now (save_to_file m) = .ok m := by
  obtain ⟨i0, h0⟩ := m0
  have step1 : load_from_file ⟨i0, h0⟩ now (save_to_file m) =
      (do
        let imgs ← (m.images.map (fun p => (p.1, image_to_json p.2))).foldlM
          (insert_parsed now) []
        (do
          let hist ← (m.history.map match_to_json).mapM parse_match_record
          pure (⟨imgs, hist⟩ : Manager) :
            Except MalformedDataError Manager)) := rfl
  rw [step1, images_fold_roundtrip now m.images [] hn (fun q hq => rfl),
    except_ok_bind, history_map_roundtrip, except_ok_bind]
  rfl

/-- Witness for C7 on the concrete two-item catalog `mAB`. -/
theorem c7_save_load_roundtrip_witness :
    load_from_file emptyManager "t" (save_to_file mAB) = .ok mAB :=
  c7_save_load_roundtrip mAB emptyManager "t" (by decide)

lemma jlookup_mem {kvs : List (String × JValue)} {k : String} {v : JValue}
    (h : jlookup kvs k = some v) : k ∈ kvs.map (fun p => p.1) := by
  unfold jlookup at h
  cases hf : kvs.find? (fun p => p.1 == k) with
  | none =>
    rw [hf] at h
    exact Option.noConfusion h
  | some p =>
    have h1 := List.find?_some hf
    have h2 := List.mem_of_find?_eq_some hf
    exact List.mem_map.mpr ⟨p, h2, by simpa using h1⟩

lemma jstrField_ok_mem {kvs : List (String × JValue)} {k s : String}
    (h : jstrField kvs k = .ok s) : k ∈ kvs.map (fun p => p.1) := by
  unfold jstrField at h
  cases hl : jlookup kvs k with
  | none =>
    rw [hl] at h
    exact Except.noConfusion
      (show Except.error MalformedDataError.malformed = Except.ok s from h)
  | some v => exact jlookup_mem hl

lemma joptStrField_ok_mem {kvs : List (String × JValue)} {k : String}
    {w : Option String} (h : joptStrField kvs k = .ok w) :
    k ∈ kvs.map (fun p => p.1) := by
  unfold joptStrField at h
  cases hl : jlookup kvs k with
  | none =>
    rw [hl] at h
    exact Except.noConfusion
      (show Except.error MalformedDataError.malformed = Except.ok w from h)
  | some v => exact jlookup_mem hl

lemma jboolField_ok_mem {kvs : List (String × JValue)} {k : String}
    {b : Bool} (h : jboolField kvs k = .ok b) :
    k ∈ kvs.map (fun p => p.1) := by
  unfold jboolField at h
  cases hl : jlookup kvs k with
  | none =>
    rw [hl] at h
    exact Except.noConfusion
      (show Except.error MalformedDataError.malformed = Except.ok b from h)
  | some v => exact jlookup_mem hl

lemma jrealField_ok_mem {kvs : List (String × JValue)} {k : String}
    {x : ℝ} (h : jrealField kvs k = .ok x) :
    k ∈ kvs.map (fun p => p.1) := by
  unfold jrealField at h
  cases hl : jlookup kvs k with
  | none =>
    rw [hl] at h
    exact Except.noConfusion
      (show Except.error MalformedDataError.malformed = Except.ok x from h)
  | some v => exact jlookup_mem hl

lemma parse_image_ok_keys {now : String} {kvs : List (String × JValue)}
    {r : ImageRecord} (h : parse_image_record now (.jobj kvs) = .ok r) :
    "id" ∈ kvs.map (fun p => p.1) ∧ "path" ∈ kvs.map (fun p => p.1) ∧
    "name" ∈ kvs.map (fun p => p.1) ∧
    kvs.all (fun p => imageFieldNames.contains p.1) = true := by
  simp only [parse_image_record] at h
  by_cases hall : kvs.all (fun p => imageFieldNames.contains p.1) = true
  · rw [if_pos hall] at h
    obtain ⟨i, hi, h⟩ := except_bind_ok h
    obtain ⟨p, hp, h⟩ := except_bind_ok h
    obtain ⟨n, hn3, h⟩ := except_bind_ok h
    exact ⟨jstrField_ok_mem hi, jstrField_ok_mem hp, jstrField_ok_mem hn3,
      hall⟩
  · rw [if_neg hall] at h
    exact Except.noConfusion h

lemma parse_match_ok_keys {kvs : List (String × JValue)} {r : MatchRecord}
    (h : parse_match_record (.jobj kvs) = .ok r) :
    ∀ req ∈ matchFieldNames, req ∈ kvs.map (fun p => p.1) := by
  simp only [parse_match_record] at h
  by_cases hall : kvs.all (fun p => matchFieldNames.contains p.1) = true
  · rw [if_pos hall] at h
    obtain ⟨ts, k1, h⟩ := except_bind_ok h
    obtain ⟨w, k2, h⟩ := except_bind_ok h
    obtain ⟨l, k3, h⟩ := except_bind_ok h
    obtain ⟨d, k4, h⟩ := except_bind_ok h
    obtain ⟨a1, k5, h⟩ := except_bind_ok h
    obtain ⟨a2, k6, h⟩ := except_bind_ok h
    obtain ⟨a3, k7, h⟩ := except_bind_ok h
    obtain ⟨a4, k8, h⟩ := except_bind_ok h
    intro req hreq
    simp only [matchFieldNames, List.mem_cons, List.not_mem_nil,
      or_false] at hreq
    rcases hreq with rfl | rfl | rfl | rfl | rfl | rfl | rfl | rfl
    · exact jstrField_ok_mem k1
    · exact joptStrField_ok_mem k2
    · exact joptStrField_ok_mem k3
    · exact jboolField_ok_mem k4
    · exact jrealField_ok_mem k5
    · exact jrealField_ok_mem k6
    · exact jrealField_ok_mem k7
    · exact jrealField_ok_mem k8
  · rw [if_neg hall] at h
    exact Except.noConfusion h

/-- C8 (amended): load never depends on the prior in-memory state (full
replacement on success); a document missing the top-level images or history
sections loads successfully as the empty state — it does not fail; an image
record missing one of its required fields (`id`, `path`, `name`) or carrying
an unexpected field fails, as does a history record missing any of its eight
required fields, and such a record failure propagates out of the whole load.
The Python dataclass constructors store wrong-typed values without
validation, so no failure is asserted for type errors. -/
theorem c8_load_malformed_amended :
    (∀ (m1 m2 : Manager) (now : String) (v : JValue),
      load_from_file m1 now v = load_from_file m2 now v)
    ∧ (∀ (m : Manager) (now : String),
      load_from_file m now (.jobj []) = .ok ⟨[], []⟩)
    ∧ (∀ (now : String) (rkvs : List (String × JValue)),
      ∀ req ∈ ["id", "path", "name"], req ∉ rkvs.map (fun p => p.1) →
        parse_image_record now (.jobj rkvs) = .error .malformed)
    ∧ (∀ (now : String) (rkvs : List (String × JValue)) (k : String),
      k ∈ rkvs.map (fun p => p.1) → k ∉ imageFieldNames →
        parse_image_record now (.jobj rkvs) = .error .malformed)
    ∧ (∀ (hkvs : List (String × JValue)),
      ∀ req ∈ matchFieldNames, req ∉ hkvs.map (fun p => p.1) →
        parse_match_record (.jobj hkvs) = .error .malformed)
    ∧ (∀ (m : Manager) (now iid : String) (rv : JValue)
        (err : MalformedDataError),
      parse_image_record now rv = .error err →
        load_from_file m now (.jobj [("images", .jobj [(iid, rv)])]) =
          .error err)
    ∧ (∀ (m : Manager) (now : String) (rv : JValue)
        (err : MalformedDataError),
      parse_match_record rv = .error err →
        load_from_file m now (.jobj [("history", .jarr [rv])]) =
          .error err) := by
  refine ⟨?_, ?_, ?_, ?_, ?_, ?_, ?_⟩
  · intro m1 m2 now v
    obtain ⟨i1, h1⟩ := m1
    obtain ⟨i2, h2⟩ := m2
    cases v <;> rfl
  · intro m now
    obtain ⟨i0, h0⟩ := m
    rfl
  · intro now rkvs req hreq hmem
    cases hres : parse_image_record now (.jobj rkvs) with
    | error e =>
      cases e
      rfl
    | ok r =>
      exfalso
      obtain ⟨hid, hpath, hname, _⟩ := parse_image_ok_keys hres
      simp only [List.mem_cons, List.not_mem_nil, or_false] at hreq
      rcases hreq with rfl | rfl | rfl
      · exact hmem hid
      · exact hmem hpath
      · exact hmem hname
  · intro now rkvs k hk hnotallowed
    cases hres : parse_image_record now (.jobj rkvs) with
    | error e =>
      cases e
      rfl
    | ok r =>
      exfalso
      obtain ⟨_, _, _, hall⟩ := parse_image_ok_keys hres
      obtain ⟨x, hx, hxk⟩ := List.mem_map.mp hk
      have := List.all_eq_true.mp hall x hx
      rw [hxk] at this
      exact hnotallowed (by simpa using this)
  · intro hkvs req hreq hmem
    cases hres : parse_match_record (.jobj hkvs) with
    | error e =>
      cases e
      rfl
    | ok r =>
      exact absurd (parse_match_ok_keys hres req hreq) hmem
  · intro m now iid rv err hparse
    obtain ⟨i0, h0⟩ := m
    have hfold : [(iid, rv)].foldlM (insert_parsed now)
        ([] : List (String × ImageRecord)) = .error err := by
      simp only [List.foldlM_cons, List.foldlM_nil, insert_parsed, hparse,
        except_error_bind]
    have step : load_from_file ⟨i0, h0⟩ now
        (.jobj [("images", .jobj [(iid, rv)])]) =
        ([(iid, rv)].foldlM (insert_parsed now) [] >>= fun imgs =>
          Except.ok ⟨imgs, []⟩) := rfl
    rw [step, hfold]
    rfl
  · intro m now rv err hparse
    obtain ⟨i0, h0⟩ := m
    have hmapM : [rv].mapM parse_match_record = .error err := by
      simp only [List.mapM_cons, List.mapM_nil, hparse, except_error_bind]
    have step : load_from_file ⟨i0, h0⟩ now
        (.jobj [("history", .jarr [rv])]) =
        ([rv].mapM parse_match_record >>= fun hist =>
          Except.ok ⟨[], hist⟩) := rfl
    rw [step, hmapM]
    rfl

/-- C8 counterexample: the document with neither an "images" nor a "history"
section loads successfully as the empty catalog and log (Python uses
`data.get("images", {})` and `data.get("history", [])`), contradicting the
claim that such a document fails with MalformedDataError. -/
theorem c8_missing_sections_counterexample :
    load_from_file mAB "t" (.jobj []) = .ok ⟨[], []⟩ := rfl

/-- Witness for C8 (amended) at concrete malformed records. -/
theorem c8_load_malformed_amended_witness :
    parse_image_record "t" (.jobj [("path", .jstr "p")]) = .error .malformed
    ∧ parse_match_record (.jobj []) = .error .malformed
    ∧ load_from_file mAB "t"
        (.jobj [("images", .jobj [("k", .jobj [("path", .jstr "p")])])]) =
        .error .malformed :=
  ⟨c8_load_malformed_amended.2.2.1 "t" [("path", .jstr "p")] "id"
      (by decide) (by decide),
   c8_load_malformed_amended.2.2.2.2.1 [] "timestamp" (by decide) (by decide),
   c8_load_malformed_amended.2.2.2.2.2.1 mAB "t" "k"
      (.jobj [("path", .jstr "p")]) .malformed
      (c8_load_malformed_amended.2.2.1 "t" [("path", .jstr "p")] "id"
        (by decide) (by decide))⟩

/-- Witness for C10 on the concrete two-item catalog `mAB` with result `0.7`. -/
theorem c10_noncanonical_result_draw_branch_witness :
    ∃ m3, record_match mAB "a" "b" 0.7 "t" = .ok m3 ∧
      lookupImage m3 "a" = some { recA with
        draws := recA.draws + 1
        «matches» := recA.«matches» + 1
        rating := (update_ratings K_FACTOR recA.rating recB.rating 0.7).1 } ∧
      lookupImage m3 "b" = some { recB with
        draws := recB.draws + 1
        «matches» := recB.«matches» + 1
        rating := (update_ratings K_FACTOR recA.rating recB.rating 0.7).2 } ∧
      ∃ e, m3.history.head? = some e ∧ e.winner_id = none ∧
        e.loser_id = none ∧
        ((0.7 : ℝ) = 0.5 → e.draw = true) ∧ ((0.7 : ℝ) ≠ 0.5 → e.draw = false) :=
  c10_noncanonical_result_draw_branch mAB "a" "b" "t" recA recB 0.7 rfl rfl
    (by decide) (by norm_num) (by norm_num)

end EloVoter
